import Mathlib

/-!
# SlowDisk — shallow embedding

A shallow embedding of `src/slowdisk.c`, a Linux kernel module that patches
the syscall dispatch table to delay `read`/`write` calls, together with
proofs of the specification's claims about it.

Modelling conventions:
* `ulong` values are natural numbers; arithmetic that can wrap is taken
  explicitly modulo `2 ^ 64` (`ULONG_MOD`), matching a 64-bit platform.
* Kernel memory is a map from byte addresses to the `ulong` stored there;
  the C code only ever accesses memory at `table + 8 * index`, which the
  model mirrors.
* Platform constants that the source only imports (`PAGE_OFFSET`,
  `ULONG_MAX` as a scan bound, the addresses of `sys_close` and of the two
  hooks) are parameters of the model, collected in `InitParams`.
* The entropy source (`get_random_bytes`) is modelled by an explicit
  argument `r`: the `ulong` that the kernel would have produced.
* A C computation whose behaviour is undefined (modulo by zero,
  dereferencing a null pointer) is modelled as `none`.
-/

namespace SlowDisk

/-- `2 ^ 64`, the modulus of `ulong` arithmetic on the 64-bit platform. -/
def ULONG_MOD : Nat := 2 ^ 64

/-- `ULONG_MAX = 2 ^ 64 - 1`. -/
def ULONG_MAX : Nat := 2 ^ 64 - 1

/-- `__NR_read` on x86-64. -/
def NR_read : Nat := 0

/-- `__NR_write` on x86-64. -/
def NR_write : Nat := 1

/-- `__NR_close` on x86-64, the anchor slot used by `get_syscall_table`. -/
def NR_close : Nat := 3

/-- `ulong` subtraction `a - b` (wrapping, modulo `2 ^ 64`). -/
def ulongSub (a b : Nat) : Nat := (a % ULONG_MOD + ULONG_MOD - b % ULONG_MOD) % ULONG_MOD

/-- Pointwise update of a memory map at one address. -/
def memUpdate (m : Nat → Nat) (a v : Nat) : Nat → Nat := fun x => if x = a then v else m x

/-- The wait-range normalization performed at the top of `slowdisk_init`
(lines 51–58 of `slowdisk.c`): `minWait < 0` is vacuous on `ulong`, so the
first branch fires exactly when `minWait > maxWait` and resets the pair to
`(500, 1000)`; otherwise, when `maxWait == 0`, `maxWait` is set to `1`. -/
def normWaits (mn mx : Nat) : Nat × Nat :=
  if mn > mx then (500, 1000)
  else if mx = 0 then (mn, 1)
  else (mn, mx)

/-- The scan loop of `get_syscall_table`: starting at candidate address `p`,
while `p < ulongMaxB`, test whether the candidate's `__NR_close` slot holds
the address of `sys_close`; on a match return the candidate, otherwise
advance one `ulong`-sized slot (8 bytes). -/
def scanFrom (mem : Nat → Nat) (sysCloseAddr ulongMaxB p : Nat) : Option Nat :=
  if p < ulongMaxB then
    if mem (p + 8 * NR_close) = sysCloseAddr then some p
    else scanFrom mem sysCloseAddr ulongMaxB (p + 8)
  else none
termination_by ulongMaxB - p
decreasing_by simp_wf; omega

/-- `get_syscall_table` (lines 133–143): scan from `PAGE_OFFSET` up to the
bound, returning the first candidate whose anchor slot matches the address
of `sys_close`; `none` models leaving `sys_call_table = NULL`. -/
def get_syscall_table (mem : Nat → Nat) (sysCloseAddr ulongMaxB pageOffset : Nat) : Option Nat :=
  scanFrom mem sysCloseAddr ulongMaxB pageOffset

/-- The module's global state: the two wait parameters, the located table
pointer (`none` = `NULL`), kernel memory, and the two saved original
handler addresses. -/
structure KState where
  minWait : Nat
  maxWait : Nat
  sys_call_table : Option Nat
  mem : Nat → Nat
  orig_sys_read : Nat
  orig_sys_write : Nat

/-- Platform parameters consumed by `slowdisk_init`: the canonical address
of `sys_close`, the addresses of the two hooks, `PAGE_OFFSET`, and the scan
bound `ULONG_MAX` (kept abstract so instances of any size can be run). -/
structure InitParams where
  sysCloseAddr : Nat
  writeHookAddr : Nat
  readHookAddr : Nat
  pageOffset : Nat
  ulongMaxB : Nat

/-- `slowdisk_init` (lines 48–83): normalize the wait range, locate the
syscall table; if it was not found, return `-1` with no slot touched;
otherwise save the current `read`/`write` slots as originals, overwrite
them with the hook addresses, increment `maxWait` (wrapping `ulong`
arithmetic) and return `0`. The `cr0` write-protection toggle has no
memory-visible effect and is not modelled. -/
def slowdisk_init (pr : InitParams) (st : KState) : Int × KState :=
  let nw := normWaits st.minWait st.maxWait
  match get_syscall_table st.mem pr.sysCloseAddr pr.ulongMaxB pr.pageOffset with
  | none => (-1, { st with minWait := nw.1, maxWait := nw.2, sys_call_table := none })
  | some p =>
    let oR := st.mem (p + 8 * NR_read)
    let oW := st.mem (p + 8 * NR_write)
    let m1 := memUpdate st.mem (p + 8 * NR_write) pr.writeHookAddr
    let m2 := memUpdate m1 (p + 8 * NR_read) pr.readHookAddr
    (0, { minWait := nw.1, maxWait := (nw.2 + 1) % ULONG_MOD,
          sys_call_table := some p, mem := m2,
          orig_sys_read := oR, orig_sys_write := oW })

/-- `slowdisk_exit` (lines 88–99): write the saved originals back into the
two slots. The C code dereferences `sys_call_table` with no null check;
when it is `NULL` the behaviour is undefined, modelled as `none`. -/
def slowdisk_exit (st : KState) : Option KState :=
  match st.sys_call_table with
  | none => none
  | some p =>
    let m1 := memUpdate st.mem (p + 8 * NR_write) st.orig_sys_write
    let m2 := memUpdate m1 (p + 8 * NR_read) st.orig_sys_read
    some { st with mem := m2 }

/-- The busy-work loop of `random_wait` (lines 115–119): `for (i = 0; i <
wait; ++i) { dumbSum += i; dumbSum *= i/2; }`, instrumented with an
iteration counter. Returns `(dumbSum, iterations)`. -/
def busyFrom (wait i dumbSum iters : Nat) : Nat × Nat :=
  if i < wait then
    busyFrom wait (i + 1) ((dumbSum + i) % ULONG_MOD * (i / 2) % ULONG_MOD) (iters + 1)
  else (dumbSum, iters)
termination_by wait - i
decreasing_by simp_wf; omega

/-- `random_wait` (lines 108–121), reading the globals `minWait = mn`,
`maxWait = mx`, with `r` the `ulong` produced by `get_random_bytes`:
compute `waitInterval = maxWait - minWait` (wrapping), then
`wait = (r % waitInterval) + minWait`, run the busy loop `wait` times and
return `wait` along with the number of loop iterations executed. When
`waitInterval = 0` the C expression `wait % waitInterval` is a modulo by
zero — undefined behaviour, modelled as `none`. -/
def random_wait (mn mx r : Nat) : Option (Nat × Nat) :=
  let wI := ulongSub mx mn
  if wI = 0 then none
  else
    let w := (r % ULONG_MOD % wI + mn) % ULONG_MOD
    some (w, (busyFrom w 0 0 0).2)

/-- `write_hook` (lines 150–153): run `random_wait`, discard its result,
and forward the three arguments to the saved original write handler,
returning its result. `origWrite` is the (abstract) saved original. -/
def write_hook (origWrite : Nat → Nat → Nat → Int) (mn mx r fd buf count : Nat) : Option Int :=
  match random_wait mn mx r with
  | none => none
  | some _ => some (origWrite fd buf count)

/-- `read_hook` (lines 160–163): run `random_wait`, discard its result, and
forward the three arguments to the saved original read handler, returning
its result. -/
def read_hook (origRead : Nat → Nat → Nat → Int) (mn mx r fd buf count : Nat) : Option Int :=
  match random_wait mn mx r with
  | none => none
  | some _ => some (origRead fd buf count)

/-! ## Concrete fixtures

Small concrete parameter blocks and states used to instantiate the
theorems: the scan range is `[0, 16)`, the anchor value `7` sits at address
`24 = 0 + 8 * NR_close`, so the locator finds the table at address `0`. -/

/-- Concrete platform parameters: anchor value `7`, hook addresses
`101`/`102`, scan range `[0, 16)`. -/
def cPr0 : InitParams := ⟨7, 101, 102, 0, 16⟩

/-- Concrete memory in which the scan succeeds at address `0`. -/
def cMem : Nat → Nat := fun a => if a = 24 then 7 else 0

/-- Concrete pre-init state with the configuration `(0, 0)`. -/
def cSt0 : KState := ⟨0, 0, none, cMem, 0, 0⟩

/-- The state `slowdisk_init cPr0 cSt0` produces. -/
def cSt0Post : KState := ⟨0, 2, some 0, memUpdate (memUpdate cMem 8 101) 0 102, 0, 0⟩

/-- Concrete pre-init state with the configuration `(1, 3)`. -/
def wSt : KState := ⟨1, 3, none, cMem, 0, 0⟩

/-- The state `slowdisk_init cPr0 wSt` produces. -/
def wStPost : KState := ⟨1, 4, some 0, memUpdate (memUpdate cMem 8 101) 0 102, 0, 0⟩

/-- The state `slowdisk_exit wStPost` produces (first restore). -/
def wStA : KState :=
  ⟨1, 4, some 0, memUpdate (memUpdate (memUpdate (memUpdate cMem 8 101) 0 102) 8 0) 0 0, 0, 0⟩

/-- The state `slowdisk_exit wStA` produces (second restore). -/
def wStB : KState :=
  ⟨1, 4, some 0, memUpdate (memUpdate wStA.mem 8 0) 0 0, 0, 0⟩

/-- Concrete pre-init state with the configuration `(0, ULONG_MAX)`. -/
def cStBig : KState := ⟨0, ULONG_MAX, none, cMem, 0, 0⟩

/-- The state `slowdisk_init cPr0 cStBig` produces: `maxWait` wraps to `0`. -/
def cStBigPost : KState := ⟨0, 0, some 0, memUpdate (memUpdate cMem 8 101) 0 102, 0, 0⟩

/-- Concrete state in which the scan fails (`minWait > maxWait` as well):
memory is all zeroes, so no candidate matches the anchor value `7`. -/
def cStFail : KState := ⟨5, 3, none, fun _ => 0, 0, 0⟩

/-! ## Helper lemmas -/

/-- Unfolding lemma for `random_wait` (definitional). -/
theorem random_wait_def (mn mx r : Nat) :
    random_wait mn mx r =
      if ulongSub mx mn = 0 then none
      else some ((r % ULONG_MOD % ulongSub mx mn + mn) % ULONG_MOD,
        (busyFrom ((r % ULONG_MOD % ulongSub mx mn + mn) % ULONG_MOD) 0 0 0).2) := rfl

/-- If no candidate slot from `p` on matches the anchor, the scan returns
`none`. -/
theorem scanFrom_eq_none (mem : Nat → Nat) (a B : Nat) :
    ∀ n p, B - p ≤ n →
      (∀ k, p + 8 * k < B → mem (p + 8 * k + 8 * NR_close) ≠ a) →
      scanFrom mem a B p = none := by
  intro n
  induction n with
  | zero =>
    intro p hle h
    rw [scanFrom]
    have hnp : ¬ p < B := by omega
    simp [hnp]
  | succ n ih =>
    intro p hle h
    rw [scanFrom]
    by_cases hp : p < B
    · have h0 : mem (p + 8 * NR_close) ≠ a := by
        have := h 0 (by omega)
        simpa using this
      have hrec : scanFrom mem a B (p + 8) = none := by
        refine ih (p + 8) (by omega) ?_
        intro k hk
        have := h (k + 1) (by omega)
        have harith : p + 8 + 8 * k = p + 8 * (k + 1) := by ring
        rw [harith]
        exact this
      simp [hp, h0, hrec]
    · simp [hp]

/-- The busy loop runs exactly `w - i` more iterations when started at `i`. -/
theorem busyFrom_iters (w : Nat) :
    ∀ n i s c, w - i ≤ n → (busyFrom w i s c).2 = c + (w - i) := by
  intro n
  induction n with
  | zero =>
    intro i s c hle
    rw [busyFrom]
    have hni : ¬ i < w := by omega
    simp [hni]
    omega
  | succ n ih =>
    intro i s c hle
    rw [busyFrom]
    by_cases hi : i < w
    · simp only [hi, if_pos]
      rw [ih (i + 1) _ _ (by omega)]
      omega
    · simp [hi]
      omega

/-- Started from zero, the busy loop runs exactly `w` iterations. -/
theorem busyFrom_iters_from_zero (w s c : Nat) : (busyFrom w 0 s c).2 = c + w := by
  have := busyFrom_iters w w 0 s c (by omega)
  simpa using this

/-- Characterization of a successful `slowdisk_init`: the locator found
some table address `p` and the final state is precisely the patched one. -/
theorem slowdisk_init_success (pr : InitParams) (st st' : KState)
    (h : slowdisk_init pr st = (0, st')) :
    ∃ p, get_syscall_table st.mem pr.sysCloseAddr pr.ulongMaxB pr.pageOffset = some p ∧
      st' = { minWait := (normWaits st.minWait st.maxWait).1,
              maxWait := ((normWaits st.minWait st.maxWait).2 + 1) % ULONG_MOD,
              sys_call_table := some p,
              mem := memUpdate (memUpdate st.mem (p + 8 * NR_write) pr.writeHookAddr)
                       (p + 8 * NR_read) pr.readHookAddr,
              orig_sys_read := st.mem (p + 8 * NR_read),
              orig_sys_write := st.mem (p + 8 * NR_write) } := by
  unfold slowdisk_init at h
  cases hg : get_syscall_table st.mem pr.sysCloseAddr pr.ulongMaxB pr.pageOffset with
  | none =>
    rw [hg] at h
    simp at h
  | some p =>
    rw [hg] at h
    simp only [Prod.mk.injEq] at h
    exact ⟨p, rfl, h.2.symm⟩

/-! ## Claims -/

/-- **C7**: if `minWait > maxWait` at startup, the normalization step of
`slowdisk_init` sets the pair exactly to `(500, 1000)`. -/
theorem c7_invalid_range_defaults (mn mx : Nat) (h : mx < mn) :
    normWaits mn mx = (500, 1000) := by
  unfold normWaits
  simp [h]

/-- Witness for C7 at the concrete configuration `(5, 3)`. -/
theorem c7_witness : normWaits 5 3 = (500, 1000) :=
  c7_invalid_range_defaults 5 3 (by norm_num)

/-- **C8**: every completed call to `random_wait` executes exactly as many
busy-loop iterations as the value it returns. -/
theorem c8_wait_equals_iterations (mn mx r v it : Nat)
    (h : random_wait mn mx r = some (v, it)) : it = v := by
  rw [random_wait_def] at h
  by_cases h0 : ulongSub mx mn = 0
  · simp [h0] at h
  · simp only [h0, if_neg, if_false] at h
    simp only [Option.some.injEq, Prod.mk.injEq] at h
    rw [← h.1, ← h.2]
    simpa using busyFrom_iters_from_zero ((r % ULONG_MOD % ulongSub mx mn + mn) % ULONG_MOD) 0 0

/-- Witness for C8: at `minWait = 0`, `maxWait = 2`, random draw `1`, the
call returns wait value `1` after `1` loop iteration. -/
theorem c8_witness : (1 : Nat) = 1 :=
  c8_wait_equals_iterations 0 2 1 1 1 (by
    rw [random_wait_def]
    norm_num [ulongSub, ULONG_MOD]
    rw [busyFrom, busyFrom]
    norm_num)

/-- **C2**: whenever the delay generator completes, `write_hook` and
`read_hook` return exactly the saved original handler applied to the
unchanged argument triple. -/
theorem c2_hooks_transparent (origWrite origRead : Nat → Nat → Nat → Int)
    (mn mx r fd buf count : Nat) (h : ulongSub mx mn ≠ 0) :
    write_hook origWrite mn mx r fd buf count = some (origWrite fd buf count) ∧
    read_hook origRead mn mx r fd buf count = some (origRead fd buf count) := by
  unfold write_hook read_hook
  rw [random_wait_def]
  simp [h]

/-- Witness for C2 at concrete original handlers and arguments. -/
theorem c2_witness :
    write_hook (fun a b c => (a : Int) + b + c) 0 2 1 5 6 7 =
      some ((fun a b c => (a : Int) + b + c) 5 6 7) ∧
    read_hook (fun a b c => (a : Int) * b * c) 0 2 1 5 6 7 =
      some ((fun a b c => (a : Int) * b * c) 5 6 7) :=
  c2_hooks_transparent (fun a b c => (a : Int) + b + c) (fun a b c => (a : Int) * b * c)
    0 2 1 5 6 7 (by norm_num [ulongSub, ULONG_MOD])

/-- **C4**: if no candidate address in the scanned range has its
`__NR_close` slot equal to the address of `sys_close`, `get_syscall_table`
(total in this model, hence terminating) returns `none`, i.e. leaves
`sys_call_table = NULL`. -/
theorem c4_scan_exhaustion_yields_none (mem : Nat → Nat) (a B pageOffset : Nat)
    (h : ∀ k, pageOffset + 8 * k < B → mem (pageOffset + 8 * k + 8 * NR_close) ≠ a) :
    get_syscall_table mem a B pageOffset = none :=
  scanFrom_eq_none mem a B (B - pageOffset) pageOffset (by omega) h

/-- Witness for C4: zeroed memory never matches anchor value `5`, so a scan
of `[0, 24)` returns `none`. -/
theorem c4_witness : get_syscall_table (fun _ => 0) 5 24 0 = none :=
  c4_scan_exhaustion_yields_none (fun _ => 0) 5 24 0 (fun k _ => by norm_num)

/-- Evaluation of `slowdisk_init` on the `(0, 0)` fixture. -/
theorem init_eval_zero_zero : slowdisk_init cPr0 cSt0 = (0, cSt0Post) := by
  simp [slowdisk_init, get_syscall_table, scanFrom, cPr0, cSt0, cSt0Post, cMem,
    normWaits, NR_close, NR_read, NR_write, ULONG_MOD]

/-- Evaluation of `slowdisk_init` on the `(1, 3)` fixture. -/
theorem init_eval_one_three : slowdisk_init cPr0 wSt = (0, wStPost) := by
  simp [slowdisk_init, get_syscall_table, scanFrom, cPr0, wSt, wStPost, cMem,
    normWaits, NR_close, NR_read, NR_write, ULONG_MOD]

/-- Evaluation of `slowdisk_init` on the `(0, ULONG_MAX)` fixture: the
post-increment `maxWait` wraps around to `0`. -/
theorem init_eval_big : slowdisk_init cPr0 cStBig = (0, cStBigPost) := by
  simp [slowdisk_init, get_syscall_table, scanFrom, cPr0, cStBig, cStBigPost, cMem,
    normWaits, NR_close, NR_read, NR_write, ULONG_MOD, ULONG_MAX]

/-- After a successful `slowdisk_init` on a configuration with
`minWait ≤ maxWait`, `0 < maxWait`, and not `(0, ULONG_MAX)`, every
completed `random_wait` draw lies within the original configured bounds.
`mxO` is the original configured `maxWait`; the global after init is
`(mxO + 1) % 2 ^ 64`. -/
theorem random_wait_mem_range (mn mxO r : Nat) (hmn : mn ≤ mxO) (hpos : 0 < mxO)
    (hlt : mxO < ULONG_MOD) (hne : ¬(mn = 0 ∧ mxO = ULONG_MAX)) :
    ∀ v it, random_wait mn ((mxO + 1) % ULONG_MOD) r = some (v, it) → mn ≤ v ∧ v ≤ mxO := by
  intro v it h
  have hM : ULONG_MOD = 18446744073709551616 := by norm_num [ULONG_MOD]
  have hMX : ULONG_MAX = 18446744073709551615 := by norm_num [ULONG_MAX]
  rw [random_wait_def] at h
  by_cases hcase : mxO = ULONG_MAX
  · have hmn1 : 1 ≤ mn := by
      rcases Nat.eq_zero_or_pos mn with h0 | h1
      · exact absurd ⟨h0, hcase⟩ hne
      · exact h1
    have hmax0 : (mxO + 1) % ULONG_MOD = 0 := by rw [hcase, hMX, hM]
    rw [hmax0] at h
    have hwI : ulongSub 0 mn = ULONG_MOD - mn := by
      unfold ulongSub
      rw [Nat.zero_mod, Nat.mod_eq_of_lt (show mn < ULONG_MOD by omega)]
      rw [Nat.zero_add]
      exact Nat.mod_eq_of_lt (by omega)
    rw [hwI] at h
    rw [if_neg (show ¬ ULONG_MOD - mn = 0 by omega)] at h
    simp only [Option.some.injEq, Prod.mk.injEq] at h
    have hqlt : r % ULONG_MOD % (ULONG_MOD - mn) < ULONG_MOD - mn :=
      Nat.mod_lt _ (by omega)
    have hv : v = (r % ULONG_MOD % (ULONG_MOD - mn) + mn) % ULONG_MOD := h.1.symm
    rw [Nat.mod_eq_of_lt (by omega)] at hv
    omega
  · have hlt1 : mxO + 1 < ULONG_MOD := by omega
    rw [Nat.mod_eq_of_lt hlt1] at h
    have hwI : ulongSub (mxO + 1) mn = mxO + 1 - mn := by
      unfold ulongSub
      rw [Nat.mod_eq_of_lt hlt1, Nat.mod_eq_of_lt (show mn < ULONG_MOD by omega)]
      have harith : mxO + 1 + ULONG_MOD - mn = mxO + 1 - mn + ULONG_MOD := by omega
      rw [harith, Nat.add_mod_right]
      exact Nat.mod_eq_of_lt (by omega)
    rw [hwI] at h
    rw [if_neg (show ¬ mxO + 1 - mn = 0 by omega)] at h
    simp only [Option.some.injEq, Prod.mk.injEq] at h
    have hqlt : r % ULONG_MOD % (mxO + 1 - mn) < mxO + 1 - mn :=
      Nat.mod_lt _ (by omega)
    have hv : v = (r % ULONG_MOD % (mxO + 1 - mn) + mn) % ULONG_MOD := h.1.symm
    rw [Nat.mod_eq_of_lt (by omega)] at hv
    omega

/-- **C1 (amended)**: for a configuration with `minWait ≤ maxWait`,
`0 < maxWait`, and not `(minWait, maxWait) = (0, ULONG_MAX)`, after a
successful `slowdisk_init` every completed `random_wait` call returns a
value `v` with `minWait ≤ v ≤ maxWait`, the original configured bounds. -/
theorem c1_random_wait_within_original_bounds (pr : InitParams) (st st' : KState) (r : Nat)
    (hmnlt : st.minWait < ULONG_MOD) (hmxlt : st.maxWait < ULONG_MOD)
    (hmm : st.minWait ≤ st.maxWait) (hpos : 0 < st.maxWait)
    (hne : ¬(st.minWait = 0 ∧ st.maxWait = ULONG_MAX))
    (hinit : slowdisk_init pr st = (0, st')) :
    ∀ v it, random_wait st'.minWait st'.maxWait r = some (v, it) →
      st.minWait ≤ v ∧ v ≤ st.maxWait := by
  obtain ⟨p, hg, hst⟩ := slowdisk_init_success pr st st' hinit
  have hnw : normWaits st.minWait st.maxWait = (st.minWait, st.maxWait) := by
    unfold normWaits
    have h1 : ¬ st.minWait > st.maxWait := by omega
    have h2 : ¬ st.maxWait = 0 := by omega
    simp [h1, h2]
  subst hst
  dsimp only
  rw [hnw]
  exact random_wait_mem_range st.minWait st.maxWait r hmm hpos hmxlt hne

/-- **C1 counterexample**: the configuration `(minWait, maxWait) = (0, 0)`
has `minWait ≤ maxWait` and passes startup normalization (init succeeds),
yet the draw `r = 1` makes `random_wait` return `1 > 0 = maxWait`. -/
theorem c1_counterexample :
    cSt0.minWait ≤ cSt0.maxWait ∧
    (slowdisk_init cPr0 cSt0).1 = 0 ∧
    (random_wait (slowdisk_init cPr0 cSt0).2.minWait
        (slowdisk_init cPr0 cSt0).2.maxWait 1).map Prod.fst = some 1 ∧
    ¬ (1 : Nat) ≤ cSt0.maxWait := by
  rw [init_eval_zero_zero]
  refine ⟨by norm_num [cSt0], rfl, ?_, by norm_num [cSt0]⟩
  rw [random_wait_def]
  norm_num [cSt0Post, ulongSub, ULONG_MOD]

/-- Witness for C1 (amended) at the configuration `(1, 3)` with draw `9`:
the returned value is `1`, inside `[1, 3]`. -/
theorem c1_witness : wSt.minWait ≤ 1 ∧ (1 : Nat) ≤ wSt.maxWait :=
  c1_random_wait_within_original_bounds cPr0 wSt wStPost 9
    (by norm_num [wSt, ULONG_MOD]) (by norm_num [wSt, ULONG_MOD])
    (by norm_num [wSt]) (by norm_num [wSt])
    (by norm_num [wSt]) init_eval_one_three 1 1
    (by
      rw [random_wait_def]
      norm_num [wStPost, ulongSub, ULONG_MOD]
      rw [busyFrom, busyFrom]
      norm_num)

/-- **C3 (amended)**: if `maxWait = 0` at startup (hence `minWait = 0`),
normalization sets `maxWait` to `1`; but the later inclusive-range
increment raises it to `2`, so subsequent `random_wait` calls return `0`
or `1` — not always `0`. -/
theorem c3_zero_max_normalization (pr : InitParams) (st st' : KState)
    (hmm : st.minWait ≤ st.maxWait) (hz : st.maxWait = 0)
    (hinit : slowdisk_init pr st = (0, st')) :
    normWaits st.minWait st.maxWait = (0, 1) ∧
    ∀ r v it, random_wait st'.minWait st'.maxWait r = some (v, it) → v = 0 ∨ v = 1 := by
  have hmn0 : st.minWait = 0 := by omega
  have hnw : normWaits st.minWait st.maxWait = (0, 1) := by
    unfold normWaits
    simp [hmn0, hz]
  obtain ⟨p, hg, hst⟩ := slowdisk_init_success pr st st' hinit
  subst hst
  refine ⟨hnw, ?_⟩
  dsimp only
  rw [hnw]
  intro r v it h
  have hM : ULONG_MOD = 18446744073709551616 := by norm_num [ULONG_MOD]
  rw [random_wait_def] at h
  have h2 : ((0, 1) : Nat × Nat).2 + 1 = 2 := rfl
  rw [h2, Nat.mod_eq_of_lt (by omega)] at h
  have hwI : ulongSub 2 0 = 2 := by unfold ulongSub; rw [hM]
  rw [hwI] at h
  rw [if_neg (by norm_num)] at h
  simp only [Option.some.injEq, Prod.mk.injEq] at h
  have hqlt : r % ULONG_MOD % 2 < 2 := Nat.mod_lt _ (by omega)
  have hv : v = (r % ULONG_MOD % 2 + 0) % ULONG_MOD := h.1.symm
  rw [Nat.mod_eq_of_lt (by omega)] at hv
  omega

/-- **C3 counterexample**: with configuration `(0, 0)` (so `maxWait = 0` at
startup, normalized to `1`), the draw `r = 1` makes `random_wait` return
`1`, not `0`. -/
theorem c3_counterexample :
    cSt0.maxWait = 0 ∧
    (slowdisk_init cPr0 cSt0).1 = 0 ∧
    (random_wait (slowdisk_init cPr0 cSt0).2.minWait
        (slowdisk_init cPr0 cSt0).2.maxWait 1).map Prod.fst = some 1 ∧
    (1 : Nat) ≠ 0 := by
  rw [init_eval_zero_zero]
  refine ⟨by norm_num [cSt0], rfl, ?_, by norm_num⟩
  rw [random_wait_def]
  norm_num [cSt0Post, ulongSub, ULONG_MOD]

/-- Witness for C3 (amended) at the configuration `(0, 0)` with draw `0`:
the returned value is `0`, which is `0` or `1`. -/
theorem c3_witness : (0 : Nat) = 0 ∨ (0 : Nat) = 1 :=
  (c3_zero_max_normalization cPr0 cSt0 cSt0Post (by norm_num [cSt0]) (by norm_num [cSt0])
    init_eval_zero_zero).2 0 0 0
    (by
      rw [random_wait_def]
      norm_num [cSt0Post, ulongSub, ULONG_MOD]
      rw [busyFrom]
      norm_num)

/-- **C9 (amended)**: after any successful `slowdisk_init` on a
configuration other than `(minWait, maxWait) = (0, ULONG_MAX)`, the divisor
`waitInterval = maxWait - minWait` computed by `random_wait` is at least
`1`, so the modulo reduction is never a reduction modulo zero (every
`random_wait` call completes). -/
theorem c9_wait_interval_positive (pr : InitParams) (st st' : KState)
    (hmnlt : st.minWait < ULONG_MOD) (hmxlt : st.maxWait < ULONG_MOD)
    (hne : ¬(st.minWait = 0 ∧ st.maxWait = ULONG_MAX))
    (hinit : slowdisk_init pr st = (0, st')) :
    0 < ulongSub st'.maxWait st'.minWait ∧
    ∀ r, (random_wait st'.minWait st'.maxWait r).isSome := by
  obtain ⟨p, hg, hst⟩ := slowdisk_init_success pr st st' hinit
  subst hst
  dsimp only
  have hM : ULONG_MOD = 18446744073709551616 := by norm_num [ULONG_MOD]
  have hne' : ¬(st.minWait = 0 ∧ st.maxWait = 18446744073709551615) := by
    have hMX : ULONG_MAX = 18446744073709551615 := by norm_num [ULONG_MAX]
    rw [hMX] at hne
    exact hne
  have key : 0 < ulongSub (((normWaits st.minWait st.maxWait).2 + 1) % ULONG_MOD)
      (normWaits st.minWait st.maxWait).1 := by
    unfold normWaits ulongSub
    rw [hM] at hmnlt hmxlt ⊢
    split_ifs <;> dsimp only <;> omega
  refine ⟨key, ?_⟩
  intro r
  rw [random_wait_def]
  rw [if_neg (by omega)]
  rfl

/-- **C9 counterexample**: the configuration `(0, ULONG_MAX)` passes
`slowdisk_init` (no normalization branch fires), yet the final increment
wraps `maxWait` to `0`, making `waitInterval = 0`: the modulo in
`random_wait` is a reduction modulo zero (undefined behaviour, `none`). -/
theorem c9_counterexample :
    cStBig.minWait ≤ cStBig.maxWait ∧
    (slowdisk_init cPr0 cStBig).1 = 0 ∧
    ulongSub (slowdisk_init cPr0 cStBig).2.maxWait (slowdisk_init cPr0 cStBig).2.minWait = 0 ∧
    random_wait (slowdisk_init cPr0 cStBig).2.minWait
      (slowdisk_init cPr0 cStBig).2.maxWait 0 = none := by
  rw [init_eval_big]
  refine ⟨by norm_num [cStBig], rfl, ?_, ?_⟩
  · norm_num [cStBigPost, ulongSub, ULONG_MOD]
  · rw [random_wait_def]
    norm_num [cStBigPost, ulongSub, ULONG_MOD]

/-- Witness for C9 (amended) at the configuration `(1, 3)`. -/
theorem c9_witness :
    0 < ulongSub wStPost.maxWait wStPost.minWait ∧
    (random_wait wStPost.minWait wStPost.maxWait 0).isSome := by
  have h := c9_wait_interval_positive cPr0 wSt wStPost
    (by norm_num [wSt, ULONG_MOD]) (by norm_num [wSt, ULONG_MOD])
    (by norm_num [wSt]) init_eval_one_three
  exact ⟨h.1, h.2 0⟩

/-- **C5 (amended)**: when the table locator yields an absent result,
`slowdisk_init` returns a non-zero status, no dispatch-table slot is
mutated (memory is unchanged at every address), and the original-handler
variables are not written. (The wait bounds may still have been
normalized, so the *whole* module state need not be exactly as before.) -/
theorem c5_locator_failure_no_mutation (pr : InitParams) (st : KState)
    (h : get_syscall_table st.mem pr.sysCloseAddr pr.ulongMaxB pr.pageOffset = none) :
    (slowdisk_init pr st).1 ≠ 0 ∧
    (∀ x, (slowdisk_init pr st).2.mem x = st.mem x) ∧
    (slowdisk_init pr st).2.orig_sys_read = st.orig_sys_read ∧
    (slowdisk_init pr st).2.orig_sys_write = st.orig_sys_write := by
  unfold slowdisk_init
  rw [h]
  exact ⟨by norm_num, fun x => rfl, rfl, rfl⟩

/-- Evaluation of the locator on the all-zero memory of `cStFail`: no
candidate in `[0, 16)` matches the anchor value `7`. -/
theorem scan_eval_fail :
    get_syscall_table cStFail.mem cPr0.sysCloseAddr cPr0.ulongMaxB cPr0.pageOffset = none := by
  simp [get_syscall_table, scanFrom, cPr0, cStFail, NR_close]

/-- **C5 counterexample**: with configuration `(5, 3)` and a memory in
which the locator fails, `slowdisk_init` is rejected and touches no slot,
but the module state is *not* exactly as before the load attempt: the
normalization has overwritten `minWait` from `5` to `500`. -/
theorem c5_counterexample :
    get_syscall_table cStFail.mem cPr0.sysCloseAddr cPr0.ulongMaxB cPr0.pageOffset = none ∧
    (slowdisk_init cPr0 cStFail).1 ≠ 0 ∧
    cStFail.minWait = 5 ∧
    (slowdisk_init cPr0 cStFail).2.minWait = 500 := by
  refine ⟨scan_eval_fail, ?_, rfl, ?_⟩
  · unfold slowdisk_init
    rw [scan_eval_fail]
    norm_num
  · unfold slowdisk_init
    rw [scan_eval_fail]
    norm_num [cStFail, normWaits]

/-- Witness for C5 (amended) at the failing-scan fixture. -/
theorem c5_witness :
    (slowdisk_init cPr0 cStFail).1 ≠ 0 ∧
    (slowdisk_init cPr0 cStFail).2.mem 0 = cStFail.mem 0 ∧
    (slowdisk_init cPr0 cStFail).2.orig_sys_read = cStFail.orig_sys_read := by
  have h := c5_locator_failure_no_mutation cPr0 cStFail scan_eval_fail
  exact ⟨h.1, h.2.1 0, h.2.2.1⟩

/-- Restoring the two patched slots with their saved originals recovers the
pre-install memory at every address. -/
theorem restore_mem (m : Nat → Nat) (p wh rh : Nat) :
    ∀ x, memUpdate (memUpdate
        (memUpdate (memUpdate m (p + 8 * NR_write) wh) (p + 8 * NR_read) rh)
        (p + 8 * NR_write) (m (p + 8 * NR_write)))
        (p + 8 * NR_read) (m (p + 8 * NR_read)) x = m x := by
  intro x
  by_cases h1 : x = p + 8 * NR_read
  · simp [memUpdate, h1]
  · by_cases h2 : x = p + 8 * NR_write
    · have hne : ¬ p + 8 * NR_write = p + 8 * NR_read := by norm_num [NR_read, NR_write]
      simp [memUpdate, h1, h2, hne]
    · simp [memUpdate, h1, h2]

/-- **C6**: after a successful install (`slowdisk_init`, which saves the
two current entries as originals), running restore (`slowdisk_exit`)
leaves the read and write slots equal to their pre-install values, and a
second restore leaves the whole memory unchanged again. -/
theorem c6_install_restore_roundtrip (pr : InitParams) (st st' stA stB : KState) (p : Nat)
    (hinit : slowdisk_init pr st = (0, st'))
    (hp : st'.sys_call_table = some p)
    (hx1 : slowdisk_exit st' = some stA)
    (hx2 : slowdisk_exit stA = some stB) :
    stA.mem (p + 8 * NR_read) = st.mem (p + 8 * NR_read) ∧
    stA.mem (p + 8 * NR_write) = st.mem (p + 8 * NR_write) ∧
    ∀ x, stB.mem x = stA.mem x := by
  obtain ⟨q, hg, hst⟩ := slowdisk_init_success pr st st' hinit
  subst hst
  simp only [Option.some.injEq] at hp
  have hp' : p = q := hp.symm
  subst hp'
  unfold slowdisk_exit at hx1
  simp only [Option.some.injEq] at hx1
  subst hx1
  unfold slowdisk_exit at hx2
  simp only [Option.some.injEq] at hx2
  subst hx2
  dsimp only
  refine ⟨restore_mem st.mem p pr.writeHookAddr pr.readHookAddr _,
    restore_mem st.mem p pr.writeHookAddr pr.readHookAddr _, ?_⟩
  intro x
  by_cases h1 : x = p + 8 * NR_read
  · simp [memUpdate, h1]
  · by_cases h2 : x = p + 8 * NR_write
    · have hne : ¬ p + 8 * NR_write = p + 8 * NR_read := by norm_num [NR_read, NR_write]
      simp [memUpdate, h1, h2, hne]
    · simp [memUpdate, h1, h2]

/-- Witness for C6 on the `(1, 3)` fixture. -/
theorem c6_witness :
    wStA.mem (0 + 8 * NR_read) = wSt.mem (0 + 8 * NR_read) ∧
    wStA.mem (0 + 8 * NR_write) = wSt.mem (0 + 8 * NR_write) ∧
    wStB.mem 0 = wStA.mem 0 := by
  have h := c6_install_restore_roundtrip cPr0 wSt wStPost wStA wStB 0
    init_eval_one_three rfl
    (by simp [slowdisk_exit, wStPost, wStA, NR_read, NR_write])
    (by simp [slowdisk_exit, wStA, wStB, NR_read, NR_write])
  exact ⟨h.1, h.2.1, h.2.2 0⟩

/-- **C10**: `slowdisk_exit` dereferences `sys_call_table` unconditionally
(no null check), so on a `NULL` table its behaviour is undefined (`none`);
under the precondition that a prior `slowdisk_init` succeeded, the table is
non-null and the restore completes (its slot writes never touch a null
table). -/
theorem c10_exit_requires_nonnull_table (pr : InitParams) (st st' st0 : KState)
    (h0 : st0.sys_call_table = none)
    (hinit : slowdisk_init pr st = (0, st')) :
    slowdisk_exit st0 = none ∧ (slowdisk_exit st').isSome := by
  constructor
  · unfold slowdisk_exit
    rw [h0]
  · obtain ⟨p, hg, hst⟩ := slowdisk_init_success pr st st' hinit
    subst hst
    rfl

/-- Witness for C10: the fresh state `wSt` has a `NULL` table and its
teardown is undefined; after the successful init producing `wStPost`,
teardown completes. -/
theorem c10_witness : slowdisk_exit wSt = none ∧ (slowdisk_exit wStPost).isSome :=
  c10_exit_requires_nonnull_table cPr0 wSt wStPost wSt rfl init_eval_one_three

end SlowDisk
